import Mathlib

/-!
A shallow embedding, in Lean 4, of the task-display pipeline of `src/main.py`
(the Logpush widget/notification script).  Python strings are modelled as
`List Char`; Python `None`-able values as `Option`; a Python run that raises an
uncaught exception (or never terminates) is modelled as `none` of an `Option`
result.  Each definition is a direct translation of the named source function;
the theorems at the end of the file settle the specification claims.
-/

namespace Logpush

/-- The characters stripped by Python's `str.strip()` (ASCII whitespace). -/
def pyIsSpace (c : Char) : Bool :=
  c = ' ' || c = '\t' || c = '\n' || c = '\x0d' || c = '\x0b' || c = '\x0c'

/-- Python `str.lstrip()`. -/
def lstrip (s : List Char) : List Char := s.dropWhile pyIsSpace

/-- Python `str.rstrip()`. -/
def rstrip (s : List Char) : List Char := (s.reverse.dropWhile pyIsSpace).reverse

/-- Python `str.strip()` (both ends). -/
def pystrip (s : List Char) : List Char := rstrip (lstrip s)

/-- Python slicing `s[:j]` for an arbitrary (possibly negative) `j`:
a negative bound counts from the end, clamped at zero. -/
def pySliceTo (d : List Char) (j : Int) : List Char :=
  if 0 ≤ j then d.take j.toNat else d.take (d.length - (-j).toNat)

/-- Python `s.ljust(w)`: right-pad with spaces to width `w`. -/
def ljust (s : List Char) (w : Nat) : List Char :=
  s ++ List.replicate (w - s.length) ' '

/-- Python substring containment `pat in s`. -/
def containsSub (pat : List Char) : List Char → Bool
  | [] => pat.isPrefixOf []
  | c :: rest => pat.isPrefixOf (c :: rest) || containsSub pat rest

/-- Python `s.startswith(pat)`. -/
def startsWith (pat s : List Char) : Bool := pat.isPrefixOf s

/-- The literal ellipsis `'...'` appended by the truncation routine. -/
def dots : List Char := ['.', '.', '.']

/-- The scan `end = trunc_length; while end > 0 and s[end] != ' ': end -= 1`
of `truncate_task_description` (src/main.py lines 138-140): starting from the
given index it walks left looking for a space, stopping at index 0 without
examining `s[0]`.  Out-of-range access cannot occur at the call site because
the caller guarantees `len(s) > trunc_length`; the `getD` default is
an arbitrary non-space character. -/
def findEnd (d : List Char) : Nat → Nat
  | 0 => 0
  | e + 1 => if d.getD (e + 1) 'a' = ' ' then e + 1 else findEnd d e

/-- The loop `while len(truncated) + 3 > trunc_length: truncated =
truncated[:len(truncated)-1].strip()` of `truncate_task_description`
(src/main.py lines 145-146), run on fuel.  When the text is empty and the
guard still holds, the Python loop body leaves the string unchanged
(`''[:-1].strip() == ''`) so the loop never exits: that case is `none`.
The fuel-exhaustion branch also returns `none`; it is unreachable from
`dropLoop`, whose fuel exceeds the strictly decreasing length. -/
def dropLoopFuel (L : Int) : Nat → List Char → Option (List Char)
  | 0, _ => none
  | fuel + 1, t =>
    if (t.length : Int) + 3 ≤ L then some t
    else match t with
      | [] => none
      | _ :: _ => dropLoopFuel L fuel (pystrip t.dropLast)

/-- The ellipsis-fitting loop of `truncate_task_description`, with enough fuel
that `none` means exactly that the Python loop diverges. -/
def dropLoop (L : Int) (t : List Char) : Option (List Char) :=
  dropLoopFuel L (t.length + 1) t

/-- `truncate_task_description(task_description, trunc_length)`
(src/main.py lines 134-147).  The limit is an `Int`, as in Python; `none`
models a run of the function that never terminates (the ellipsis-fitting
loop can spin forever when `trunc_length < 3`). -/
def truncate_task_description (d : List Char) (L : Int) : Option (List Char) :=
  if (d.length : Int) ≤ L then some d
  else
    let e : Int := if L ≤ 0 then L else (findEnd d L.toNat : Int)
    if e = 0 then
      some (pystrip (pySliceTo d (L - 3)) ++ dots)
    else
      (dropLoop L (pystrip (pySliceTo d e))).map (fun t => t ++ dots)

/-- Decimal digit character for `n < 10`. -/
def digitChar (n : Nat) : Char := Char.ofNat (48 + n)

/-- Decimal rendering of a natural number without leading zeros (as Python's
`%-m`/`%-d` strftime directives and `str(int)` produce), on fuel; the fuel
`n + 1` of `natDigits` always suffices since `n / 10 < n` for `n ≥ 10`. -/
def natDigitsAux : Nat → Nat → List Char
  | 0, _ => []
  | fuel + 1, n =>
    if n < 10 then [digitChar n]
    else natDigitsAux fuel (n / 10) ++ [digitChar (n % 10)]

/-- Decimal rendering of a natural number without leading zeros. -/
def natDigits (n : Nat) : List Char := natDigitsAux (n + 1) n

/-- Zero-padded decimal rendering to width `w` (Python `%02d`-style). -/
def padNum (w : Nat) (n : Nat) : List Char :=
  List.replicate (w - (natDigits n).length) '0' ++ natDigits n

/-- The value of a `datetime.datetime` as produced by the script's
`strptime` calls: seconds and microseconds are always zero. -/
structure DateTime where
  year : Nat
  month : Nat
  day : Nat
  hour : Nat
  minute : Nat
deriving DecidableEq, Repr

/-- Python `datetime <= datetime`: lexicographic on the fields (the omitted
second/microsecond fields are zero on both sides throughout the script). -/
def dtLE (a b : DateTime) : Prop :=
  a.year < b.year ∨ (a.year = b.year ∧
    (a.month < b.month ∨ (a.month = b.month ∧
      (a.day < b.day ∨ (a.day = b.day ∧
        (a.hour < b.hour ∨ (a.hour = b.hour ∧ a.minute ≤ b.minute)))))))

instance : DecidableRel dtLE := fun a b => by unfold dtLE; infer_instance

/-- The field ranges guaranteed by a successful `datetime.strptime`. -/
def ValidDT (dt : DateTime) : Prop :=
  1 ≤ dt.year ∧ dt.year ≤ 9999 ∧ 1 ≤ dt.month ∧ dt.month ≤ 12 ∧
    1 ≤ dt.day ∧ dt.day ≤ 31 ∧ dt.hour ≤ 23 ∧ dt.minute ≤ 59

instance (dt : DateTime) : Decidable (ValidDT dt) := by unfold ValidDT; infer_instance

/-- Day count of a proleptic-Gregorian date from a fixed origin (the standard
civil-from-days algorithm, specialised to `year ≥ 1` so all arithmetic stays
in `Nat`).  Only differences of this count are ever used. -/
def daysFromCivil (y m d : Nat) : Nat :=
  let yy := if m ≤ 2 then y - 1 else y
  let era := yy / 400
  let yoe := yy % 400
  let mp := (m + 9) % 12
  let doy := (153 * mp + 2) / 5 + (d - 1)
  let doe := yoe * 365 + yoe / 4 - yoe / 100 + doy
  era * 146097 + doe

/-- A `DateTime` as a count of seconds from the `daysFromCivil` origin. -/
def toSec (dt : DateTime) : Nat :=
  86400 * daysFromCivil dt.year dt.month dt.day + 3600 * dt.hour + 60 * dt.minute

/-- A `DateTime` as a count of microseconds, the granularity of Python
`datetime` subtraction (`datetime.now()` carries microseconds). -/
def toMicro (dt : DateTime) : Int := (toSec dt : Int) * 1000000

/-- `format_date(dt)` (src/main.py lines 149-151): `strftime('%-m/%-d/%y')`,
month and day without leading zeros, two-digit year. -/
def format_date (dt : DateTime) : List Char :=
  natDigits dt.month ++ '/' :: natDigits dt.day ++ '/' :: padNum 2 (dt.year % 100)

/-- Python `datetime.isoformat()` for a second- and microsecond-free value:
`YYYY-MM-DDTHH:MM:SS`. -/
def isoformat (dt : DateTime) : List Char :=
  padNum 4 dt.year ++ '-' :: padNum 2 dt.month ++ '-' :: padNum 2 dt.day ++
    'T' :: padNum 2 dt.hour ++ ':' :: padNum 2 dt.minute ++ ':' :: padNum 2 0

/-- ASCII decimal digit test (Python's `\d` on the ASCII inputs at hand). -/
def pyIsDigit (c : Char) : Bool := '0' ≤ c && c ≤ '9'

/-- Shape test for the regex fragment `\d{4}-\d{2}-\d{2}` against a 10-character
candidate. -/
def dateShape (s : List Char) : Bool :=
  match s with
  | [a, b, c, d, e, f, g, h, i, j] =>
    pyIsDigit a && pyIsDigit b && pyIsDigit c && pyIsDigit d && e = '-' &&
      pyIsDigit f && pyIsDigit g && h = '-' && pyIsDigit i && pyIsDigit j
  | _ => false

/-- Shape test for the regex `\d{2}:\d{2}` against a 5-character candidate. -/
def timeShape (s : List Char) : Bool :=
  match s with
  | [a, b, c, d, e] => pyIsDigit a && pyIsDigit b && c = ':' && pyIsDigit d && pyIsDigit e
  | _ => false

/-- Attempt to match the pattern `SCHEDULED: <\d{4}-\d{2}-\d{2}` at the start
of `s`, returning the captured date digits. -/
def matchDateAt (s : List Char) : Option (List Char) :=
  if startsWith "SCHEDULED: <".toList s then
    let r := (s.drop 12).take 10
    if dateShape r then some r else none
  else none

/-- Attempt to match the pattern `\d{2}:\d{2}` at the start of `s`. -/
def matchTimeAt (s : List Char) : Option (List Char) :=
  let r := s.take 5
  if timeShape r then some r else none

/-- Leftmost-position search, as Python `re.search` performs for a pattern with
no variable-width parts: try the matcher at each start position from the left. -/
def searchFirst (f : List Char → Option (List Char)) : List Char → Option (List Char)
  | [] => f []
  | c :: rest =>
    match f (c :: rest) with
    | some r => some r
    | none => searchFirst f rest

/-- `parse_task_line(line)` (src/main.py lines 96-99):
`re.match(r"- TODO (.+)", line)`, returning the capture.  `.` does not match a
newline, and `.+` is greedy, so the capture is everything after the marker up
to the first newline, and must be non-empty. -/
def parse_task_line (l : List Char) : Option (List Char) :=
  if startsWith "- TODO ".toList l then
    let rest := (l.drop 7).takeWhile (fun c => c ≠ '\n')
    if rest.length = 0 then none else some rest
  else none

/-- `parse_scheduled_line(line)` (src/main.py lines 101-107): the date is the
capture of `re.search(r"SCHEDULED: <(\d{4}-\d{2}-\d{2})", line)` and the time
the capture of `re.search(r"(\d{2}:\d{2})", line)`. -/
def parse_scheduled_line (l : List Char) : Option (List Char) × Option (List Char) :=
  (searchFirst matchDateAt l, searchFirst matchTimeAt l)

/-- Days of each month, with Gregorian leap rule, as validated by
`datetime`'s constructor. -/
def daysInMonth (y m : Nat) : Nat :=
  if m = 2 then (if y % 4 = 0 ∧ (y % 100 ≠ 0 ∨ y % 400 = 0) then 29 else 28)
  else if m = 4 ∨ m = 6 ∨ m = 9 ∨ m = 11 then 30 else 31

/-- Numeric value of a digit string. -/
def digitsToNat (cs : List Char) : Nat :=
  cs.foldl (fun a c => 10 * a + (c.toNat - 48)) 0

/-- Models Python's `datetime.strptime(s, '%Y-%m-%d')`: the argument here is
always a regex capture already of `dateShape`; validation (year ≥ 1, month
1-12, day within the month) raises `ValueError` on failure, i.e. `none`. -/
def strptime_date (s : List Char) : Option DateTime :=
  if dateShape s then
    let y := digitsToNat (s.take 4)
    let m := digitsToNat ((s.drop 5).take 2)
    let d := digitsToNat (s.drop 8)
    if 1 ≤ y ∧ 1 ≤ m ∧ m ≤ 12 ∧ 1 ≤ d ∧ d ≤ daysInMonth y m then
      some ⟨y, m, d, 0, 0⟩
    else none
  else none

/-- Models Python's `datetime.strptime(f'{s} {t}', '%Y-%m-%d %H:%M')` on a
date capture `s` and time capture `t` (of `timeShape`): hour 0-23 and
minute 0-59, `ValueError` (`none`) otherwise. -/
def strptime_datetime (s t : List Char) : Option DateTime :=
  match strptime_date s with
  | none => none
  | some dt =>
    if timeShape t then
      let h := digitsToNat (t.take 2)
      let mi := digitsToNat (t.drop 3)
      if h ≤ 23 ∧ mi ≤ 59 then some ⟨dt.year, dt.month, dt.day, h, mi⟩ else none
    else none

/-- The `strptime` call of src/main.py line 250: combined date and time when a
time was captured (always truthy as a non-empty string), date only otherwise. -/
def strptime_sched (d : List Char) : Option (List Char) → Option DateTime
  | some t => strptime_datetime d t
  | none => strptime_date d

/-- A parsed task as held in the `tasks` list of `main`: the description is the
result of `parse_task_line` (Python `None` when the regex did not match, even
though the line passed the `startswith('- TODO')` check). -/
structure Task where
  desc : Option (List Char)
  due : Option DateTime
deriving DecidableEq, Repr

/-- The task-collection loop of `main` (src/main.py lines 241-257): strip each
line; on a `- TODO` prefix record `(parse_task_line(line), due)`, where the due
date comes from the immediately following line when that line contains
`SCHEDULED:` and the date pattern matches — consuming that line — and the
whole run dies with an uncaught `ValueError` (`none`) when `strptime` rejects
the matched date or time digits. -/
def main_collect_tasks : List (List Char) → Option (List Task)
  | [] => some []
  | [l] =>
    let line := pystrip l
    if startsWith "- TODO".toList line then some [⟨parse_task_line line, none⟩]
    else some []
  | l :: r :: rest2 =>
    let line := pystrip l
    if startsWith "- TODO".toList line then
      let desc := parse_task_line line
      let next_line := pystrip r
      if containsSub "SCHEDULED:".toList next_line then
        match parse_scheduled_line next_line with
        | (some d, tOpt) =>
          match strptime_sched d tOpt with
          | some dt => (main_collect_tasks rest2).map (fun ts => ⟨desc, some dt⟩ :: ts)
          | none => none
        | (none, _) => (main_collect_tasks (r :: rest2)).map (fun ts => ⟨desc, none⟩ :: ts)
      else (main_collect_tasks (r :: rest2)).map (fun ts => ⟨desc, none⟩ :: ts)
    else main_collect_tasks (r :: rest2)

/-- The sort key order of `tasks.sort(key=lambda x: (x[1] is None, x[1] or
datetime.max))` (src/main.py line 260): dated before undated, dated compared as
datetimes, undated mutually tied. -/
def dueLE : Option DateTime → Option DateTime → Prop
  | some a, some b => dtLE a b
  | some _, none => True
  | none, some _ => False
  | none, none => True

instance : DecidableRel dueLE := fun a b => by
  cases a <;> cases b <;> unfold dueLE <;> infer_instance

/-- Key order on tasks, as used by the sort in `main`. -/
def taskLE (a b : Task) : Prop := dueLE a.due b.due

instance : DecidableRel taskLE := fun a b => by unfold taskLE; infer_instance

/-- `tasks.sort(...)` of src/main.py line 260: Python's `list.sort` is a
stable sort by the key order, modelled by (stable) insertion sort. -/
def main_sort_tasks (ts : List Task) : List Task := List.insertionSort taskLE ts

/-- `should_send_notification(tracker_file, task_time)` (src/main.py lines
123-132), over the tracker file's contents (`none` when the file does not
exist): equal stored value after `.strip()` suppresses and leaves the file
alone; otherwise the candidate is written and sending is permitted.  Returns
(permit, new file contents). -/
def should_send_notification (tracker : Option (List Char)) (task_time : List Char) :
    Bool × Option (List Char) :=
  match tracker with
  | some content =>
    if pystrip content = task_time then (false, some content)
    else (true, some task_time)
  | none => (true, some task_time)

/-- `pad_task_description_with_date(description, formatted_date, total_length)`
(src/main.py lines 153-157): `space_needed` is a Python `int` that can go
negative, in which case `' ' * space_needed` is empty. -/
def pad_task_description_with_date (description fd : List Char) (total : Nat) : List Char :=
  let space_needed : Int := (total : Int) - description.length - fd.length - 3
  let padded := description ++ List.replicate space_needed.toNat ' '
  padded ++ ' ' :: '(' :: (fd ++ [')'])

/-- `max_tasks` (src/main.py line 237). -/
def max_tasks : Nat := 5

/-- `total_length` (src/main.py line 238). -/
def total_length : Nat := 40

/-- What one iteration of the display loop produces for one slot. -/
structure SlotOut where
  text : List Char
  consulted : Option (List Char)
deriving DecidableEq, Repr

/-- One iteration of the display loop of `main` (src/main.py lines 262-283)
for slot content `t?` (`none` beyond the task count), at current time `now`
(an integer count of microseconds on the `toMicro` scale, as `datetime.now()`
carries microseconds): produces the string written to the slot file and, for a
dated task inside the 180-second window, the timestamp identity with which the
notification gate is consulted.  `none` models the uncaught `TypeError` of
`len(None)` when the recorded description is Python `None`, or a
non-terminating truncation. -/
def processSlot (now : Int) (t? : Option Task) : Option SlotOut :=
  match t? with
  | none => some ⟨List.replicate total_length ' ', none⟩
  | some t =>
    match t.desc with
    | none => none
    | some desc =>
      match t.due with
      | some dt =>
        let fd := format_date dt
        let date_length : Int := (fd.length : Int) + 3
        let trunc_length_with_date : Int := (total_length : Int) - date_length
        match truncate_task_description desc trunc_length_with_date with
        | none => none
        | some tr =>
          let text := pad_task_description_with_date tr fd total_length
          let diff := toMicro dt - now
          some ⟨text, if 0 ≤ diff ∧ diff ≤ 180000000 then some (isoformat dt) else none⟩
      | none =>
        match truncate_task_description desc (total_length : Int) with
        | none => none
        | some tr => some ⟨ljust tr total_length, none⟩

/-- The outcome of the display loop: the slot strings in order, the final
tracker-file contents, and the identities for which a push was attempted. -/
structure RunOut where
  texts : List (List Char)
  tracker : Option (List Char)
  sent : List (List Char)
deriving DecidableEq, Repr

/-- The display loop of `main` over a list of slot contents, threading the
tracker file through `should_send_notification` exactly when a slot's window
check passed (src/main.py lines 262-283). -/
def runSlots (now : Int) : List (Option Task) → Option (List Char) → Option RunOut
  | [], st => some ⟨[], st, []⟩
  | t? :: rest, st =>
    match processSlot now t? with
    | none => none
    | some out =>
      let step : Option (List Char) × List (List Char) :=
        match out.consulted with
        | some id =>
          match should_send_notification st id with
          | (b, st2) => (st2, if b then [id] else [])
        | none => (st, [])
      match runSlots now rest step.1 with
      | none => none
      | some r => some ⟨out.text :: r.texts, r.tracker, step.2 ++ r.sent⟩

/-- The slot contents of one run: `tasks[i]` for `i` below the task count,
empty (`none`) otherwise, for `i = 0 .. max_tasks - 1`. -/
def slotTasks (tasks : List Task) : List (Option Task) :=
  (List.range max_tasks).map (fun i => tasks.get? i)

/-- The whole widget phase of `main`: sorted tasks into slots, slots rendered
and written, the gate consulted inside the window. -/
def runWidget (now : Int) (st : Option (List Char)) (tasks : List Task) : Option RunOut :=
  runSlots now (slotTasks tasks) st

/-- `write_task_file(task, index, output_dir)` (src/main.py lines 109-113):
the write of slot `index` is the pair (file index, contents), the file being
`pushWidget{index}.txt`. -/
def write_task_file (task : List Char) (index : Nat) : Nat × List Char := (index, task)

/-- The files a completed run writes: `write_task_file(texts[i], i)`. -/
def filesOf (texts : List (List Char)) : List (Nat × List Char) :=
  texts.enum.map (fun p => write_task_file p.2 p.1)

/-- Whether `t` is a word-boundary cut of `d`: some cut position `k` has
`strip(d[:k]) = t` and lies at the end of `d` or on a space.  Used to state
the "never splits a word" part of the truncation claims. -/
def cutBoundary (d t : List Char) : Bool :=
  (List.range (d.length + 1)).any
    (fun k => pystrip (d.take k) == t && (k == d.length || d.getD k 'a' == ' '))

/-- Modelled from the spec's words (`first date-shaped token ... anywhere in
the line`), for comparison with `parse_scheduled_line`: the leftmost
`\d{4}-\d{2}-\d{2}`-shaped substring, with no anchoring context. -/
def firstDateAnywhere (l : List Char) : Option (List Char) :=
  searchFirst (fun s => let r := s.take 10; if dateShape r then some r else none) l

/-! ### Helper lemmas about the string model -/

theorem lstrip_sublist (s : List Char) : (lstrip s).Sublist s :=
  List.dropWhile_sublist _

theorem rstrip_sublist (s : List Char) : (rstrip s).Sublist s := by
  have h : ((s.reverse.dropWhile pyIsSpace).reverse).Sublist s.reverse.reverse :=
    (List.dropWhile_sublist (l := s.reverse) pyIsSpace).reverse
  simpa [rstrip] using h

theorem pystrip_sublist (s : List Char) : (pystrip s).Sublist s :=
  (rstrip_sublist (lstrip s)).trans (lstrip_sublist s)

theorem pystrip_length_le (s : List Char) : (pystrip s).length ≤ s.length :=
  (pystrip_sublist s).length_le

/-! ### Helper lemmas about the truncation loops -/

theorem dropLoopFuel_some (L : Int) (hL : 3 ≤ L) :
    ∀ fuel (t : List Char), t.length < fuel →
      ∃ r, dropLoopFuel L fuel t = some r ∧ (r.length : Int) + 3 ≤ L := by
  intro fuel
  induction fuel with
  | zero => intro t h; omega
  | succ f ih =>
    intro t ht
    by_cases hc : (t.length : Int) + 3 ≤ L
    · exact ⟨t, by simp [dropLoopFuel, hc], hc⟩
    · match t with
      | [] => exact absurd (by simpa using hL) hc
      | c :: cs =>
        have hlen : (pystrip (c :: cs).dropLast).length < f := by
          have h1 := pystrip_length_le ((c :: cs).dropLast)
          have h2 := List.length_dropLast (c :: cs)
          simp only [List.length_cons] at h2 ht
          omega
        obtain ⟨r, hr, hrl⟩ := ih _ hlen
        refine ⟨r, ?_, hrl⟩
        show dropLoopFuel L (f + 1) (c :: cs) = some r
        simp only [dropLoopFuel]
        rw [if_neg hc]
        exact hr

theorem dropLoop_some (L : Int) (hL : 3 ≤ L) (t : List Char) :
    ∃ r, dropLoop L t = some r ∧ (r.length : Int) + 3 ≤ L :=
  dropLoopFuel_some L hL (t.length + 1) t (by omega)

theorem dropLoop_of_fits (L : Int) (t : List Char) (h : (t.length : Int) + 3 ≤ L) :
    dropLoop L t = some t := by
  simp [dropLoop, dropLoopFuel, h]

theorem findEnd_le (d : List Char) : ∀ n, findEnd d n ≤ n := by
  intro n
  induction n with
  | zero => simp [findEnd]
  | succ m ih =>
    unfold findEnd
    split
    · exact Nat.le_refl _
    · omega

theorem findEnd_space (d : List Char) :
    ∀ n, findEnd d n ≠ 0 → d.getD (findEnd d n) 'a' = ' ' := by
  intro n
  induction n with
  | zero => simp [findEnd]
  | succ m ih =>
    unfold findEnd
    split
    · intro _; assumption
    · exact ih

theorem findEnd_ne_zero (d : List Char) :
    ∀ n p, 1 ≤ p → p ≤ n → d.getD p 'a' = ' ' → findEnd d n ≠ 0 := by
  intro n
  induction n with
  | zero => intro p h1 h2 _; omega
  | succ m ih =>
    intro p h1 h2 hp
    unfold findEnd
    split
    · omega
    · rename_i hne
      rcases Nat.lt_or_ge p (m + 1) with hlt | hge
      · exact ih p h1 (by omega) hp
      · have : p = m + 1 := by omega
        subst this
        exact absurd hp hne

/-- Master lemma for the truncation routine at any limit `L ≥ 3` (every limit
the program uses is between 29 and 40): the function terminates, the result
fits within `L`, a short description is returned unchanged, and a long one
gains the `'...'` suffix. -/
theorem truncate_spec (d : List Char) (L : Int) (hL : 3 ≤ L) :
    ∃ r, truncate_task_description d L = some r ∧ (r.length : Int) ≤ L ∧
      ((d.length : Int) ≤ L → r = d) ∧
      (L < (d.length : Int) → ∃ p, r = p ++ dots) := by
  unfold truncate_task_description
  by_cases hle : (d.length : Int) ≤ L
  · exact ⟨d, by simp [hle], hle, fun _ => rfl, fun h => absurd hle (by omega)⟩
  · have hL0 : ¬ L ≤ 0 := by omega
    simp only [hle, if_false, hL0]
    by_cases he : findEnd d L.toNat = 0
    · have hcond : ((findEnd d L.toNat : Int) = 0) := by exact_mod_cast he
      simp only [hcond, if_true, if_pos]
      refine ⟨_, rfl, ?_, fun h => h.elim, fun _ => ⟨_, rfl⟩⟩
      have h1 : (pySliceTo d (L - 3)).length ≤ (L - 3).toNat := by
        simp only [pySliceTo]
        rw [if_pos (by omega)]
        simp
      have h2 := pystrip_length_le (pySliceTo d (L - 3))
      have h3 : (((L - 3).toNat : Int)) = L - 3 := Int.toNat_of_nonneg (by omega)
      have hd : dots.length = 3 := rfl
      simp only [List.length_append]
      push_cast
      omega
    · have hcond : ¬ ((findEnd d L.toNat : Int) = 0) := by
        intro h; exact he (by exact_mod_cast h)
      simp only [hcond, if_false]
      obtain ⟨r, hr, hrl⟩ := dropLoop_some L hL (pystrip (pySliceTo d (findEnd d L.toNat)))
      refine ⟨r ++ dots, by simp [hr], ?_, fun h => h.elim, fun _ => ⟨_, rfl⟩⟩
      have hd : dots.length = 3 := rfl
      simp only [List.length_append]
      push_cast
      omega

/-! ### Claims C1 and C10: the truncation routine -/

/-- C1 (amended): for every description and every limit `L ≥ 3`,
`truncate_task_description` terminates with a result of length at most `L`;
when the description was longer than `L` the result ends in the literal
`'...'`; when some space sits at a position `p` with `1 ≤ p ≤ L` the space
scan lands on a space, and if the text cut there still fits together with the
ellipsis, the cut is at a word boundary.  (As stated the claim is false: for
`L < 3` the result can exceed `L` — Python's negative slice `s[:L-3]` keeps
almost all of the string — and the ellipsis-fitting loop may drop trailing
characters of a word even though the space cut was at a boundary; and a space
at position 0 is never found by the scan, which stops at index 1.) -/
theorem C1_truncation (d : List Char) (L : Int) (hL : 3 ≤ L) :
    ∃ r, truncate_task_description d L = some r ∧
      (r.length : Int) ≤ L ∧
      (L < (d.length : Int) → ∃ p, r = p ++ dots) ∧
      ((∃ p : Nat, 1 ≤ p ∧ (p : Int) ≤ L ∧ d.getD p 'a' = ' ') → L < (d.length : Int) →
        findEnd d L.toNat ≠ 0) ∧
      (L < (d.length : Int) → findEnd d L.toNat ≠ 0 →
        ((pystrip (d.take (findEnd d L.toNat))).length : Int) + 3 ≤ L →
        r = pystrip (d.take (findEnd d L.toNat)) ++ dots ∧
          cutBoundary d (pystrip (d.take (findEnd d L.toNat))) = true) := by
  obtain ⟨r, hr, hlen, hshort, hsuf⟩ := truncate_spec d L hL
  refine ⟨r, hr, hlen, hsuf, ?_, ?_⟩
  · rintro ⟨p, hp1, hp2, hps⟩ hlong
    exact findEnd_ne_zero d L.toNat p hp1 (by omega) hps
  · intro hlong he hfit
    have hnle : ¬ ((d.length : Int) ≤ L) := by omega
    have hL0 : ¬ L ≤ 0 := by omega
    have hcond : ¬ ((findEnd d L.toNat : Int) = 0) := fun h => he (by exact_mod_cast h)
    have hslice : pySliceTo d ((findEnd d L.toNat : Int)) = d.take (findEnd d L.toNat) := by
      simp [pySliceTo]
    have hdl : dropLoop L (pystrip (d.take (findEnd d L.toNat))) =
        some (pystrip (d.take (findEnd d L.toNat))) := dropLoop_of_fits L _ hfit
    have htr : truncate_task_description d L =
        some (pystrip (d.take (findEnd d L.toNat)) ++ dots) := by
      unfold truncate_task_description
      rw [if_neg hnle]
      simp only [hL0, if_false, hcond, hslice, hdl]
      rfl
    rw [hr] at htr
    have hreq : r = pystrip (d.take (findEnd d L.toNat)) ++ dots := by
      exact Option.some.inj htr
    refine ⟨hreq, ?_⟩
    have hsp := findEnd_space d L.toNat he
    have hfe := findEnd_le d L.toNat
    apply List.any_eq_true.mpr
    refine ⟨findEnd d L.toNat, List.mem_range.mpr (by omega), ?_⟩
    simp
    right
    simpa [List.getD] using hsp

/-- C1, the claim as stated is false at explicit inputs: at limit 2 the
result of truncating `"abcdefgh"` has length 10 > 2; at limit 5 the result of
truncating `"abcd efgh"` is `"ab..."`, cutting inside the word `"abcd"` even
though a space sits at position 4 ≤ 5; and truncating `" abcdef"` at limit 5
cuts inside `"abcdef"` even though a space sits at position 0 ≤ 5. -/
theorem C1_truncation_counterexample :
    (truncate_task_description "abcdefgh".toList 2 = some "abcdefg...".toList ∧
      ¬ ((("abcdefg...".toList).length : Int) ≤ 2)) ∧
    (truncate_task_description "abcd efgh".toList 5 = some "ab...".toList ∧
      ("abcd efgh".toList).getD 4 'a' = ' ' ∧
      cutBoundary "abcd efgh".toList "ab".toList = false) ∧
    (truncate_task_description " abcdef".toList 5 = some "a...".toList ∧
      (" abcdef".toList).getD 0 'a' = ' ' ∧
      cutBoundary " abcdef".toList "a".toList = false) := by
  decide

/-- C1, witness: the amended theorem applied at the spec's own example
`truncate("Buy milk and eggs from the store", 15)`. -/
theorem C1_truncation_witness :
    (((truncate_task_description "Buy milk and eggs from the store".toList 15).getD
        []).length : Int) ≤ 15 := by
  obtain ⟨r, hr, hlen, -, -, -⟩ :=
    C1_truncation "Buy milk and eggs from the store".toList 15 (by decide)
  rw [hr]
  simpa using hlen

/-- C10 (amended): the truncation routine terminates for every description at
every limit `L ≥ 3` — which covers every limit the program passes (between 29
and 40).  (As stated the claim is false: for `L ≤ 2`, when the space scan
finds a space, the ellipsis-fitting loop reaches the empty string and then
loops forever, since `''[:-1].strip()` is again `''`.) -/
theorem C10_termination (d : List Char) (L : Int) (hL : 3 ≤ L) :
    (truncate_task_description d L).isSome = true := by
  obtain ⟨r, hr, -⟩ := truncate_spec d L hL
  simp [hr]

/-- C10, the claim as stated is false at an explicit input: truncating
`"a bc"` at limit 2 never terminates (the model's `none`): the space scan
finds the space at position 1, and the drop loop's guard `len + 3 > 2` still
holds at the empty string, which the loop body leaves unchanged. -/
theorem C10_termination_counterexample :
    truncate_task_description "a bc".toList 2 = none := by decide

/-- C10, witness: termination at a concrete description and limit. -/
theorem C10_termination_witness :
    (truncate_task_description "Supercalifragilisticexpialidocious".toList 10).isSome = true :=
  C10_termination "Supercalifragilisticexpialidocious".toList 10 (by decide)

/-! ### Claim C6: fixed-width dated rendering -/

/-- Shared length fact for the dated rendering: when the description and the
date suffix fit, the padded rendering is exactly `total` characters. -/
theorem pad_length (desc fd : List Char) (total : Nat)
    (h : desc.length + fd.length + 3 ≤ total) :
    (pad_task_description_with_date desc fd total).length = total := by
  simp only [pad_task_description_with_date]
  have hk : (((total : Int) - desc.length - fd.length - 3)).toNat =
      total - desc.length - fd.length - 3 := by omega
  simp only [List.length_append, List.length_replicate, List.length_cons,
    List.length_nil, hk]
  omega

/-- C6: for every description whose length is at most
`total_length - (len(formatted_date) + 3)` and every formatted date, the dated
rendering is exactly `total_length = 40` characters and consists of the
description, padding spaces, and the ` (formatted_date)` suffix. -/
theorem C6_padding (desc fd : List Char)
    (h : desc.length + fd.length + 3 ≤ total_length) :
    (pad_task_description_with_date desc fd total_length).length = total_length ∧
    pad_task_description_with_date desc fd total_length =
      desc ++ List.replicate (total_length - (desc.length + fd.length + 3)) ' '
        ++ ' ' :: '(' :: (fd ++ [')']) := by
  refine ⟨pad_length desc fd total_length h, ?_⟩
  simp only [pad_task_description_with_date]
  have hk : (((total_length : Int) - desc.length - fd.length - 3)).toNat =
      total_length - (desc.length + fd.length + 3) := by
    unfold total_length at h ⊢
    omega
  rw [hk]

/-- C6, witness: the amended-free theorem applied at a concrete description
and formatted date. -/
theorem C6_padding_witness :
    (pad_task_description_with_date "Buy milk".toList "1/2/25".toList total_length).length =
      total_length :=
  (C6_padding "Buy milk".toList "1/2/25".toList (by decide)).1

/-! ### Claim C4: the notification gate -/

/-- C4: for every tracker state and every whitespace-clean timestamp identity
`t`, two successive invocations of the gate with `t` permit a send at most
once — the second invocation suppresses and leaves the tracker unchanged —
and invoking it with identity `t` when a different (whitespace-clean) value
`s` is stored always overwrites the tracker with `t` and permits the send.
(`isoformat` timestamps contain no whitespace, so the cleanliness hypotheses
hold at every call site.) -/
theorem C4_notification_gate (st : Option (List Char)) (t s : List Char)
    (ht : pystrip t = t) (hs : pystrip s = s) (hne : s ≠ t) :
    ((should_send_notification (should_send_notification st t).2 t).1 = false ∧
      (should_send_notification (should_send_notification st t).2 t).2 =
        (should_send_notification st t).2) ∧
    should_send_notification (some s) t = (true, some t) := by
  refine ⟨?_, by simp [should_send_notification, hs, hne]⟩
  cases st with
  | none => simp [should_send_notification, ht]
  | some c =>
    by_cases hc : pystrip c = t
    · simp [should_send_notification, hc]
    · simp [should_send_notification, hc, ht]

/-- C4, witness: starting from a missing tracker file, the second call with
the same ISO identity suppresses, and a differing stored value is
overwritten with a permit. -/
theorem C4_notification_gate_witness :
    (should_send_notification
        (should_send_notification none "2025-01-02T10:30:00".toList).2
        "2025-01-02T10:30:00".toList).1 = false ∧
    should_send_notification (some "x".toList) "2025-01-02T10:30:00".toList =
      (true, some "2025-01-02T10:30:00".toList) := by
  obtain ⟨⟨h1, h2⟩, h3⟩ :=
    C4_notification_gate none "2025-01-02T10:30:00".toList "x".toList
      (by decide) (by decide) (by decide)
  exact ⟨h1, h3⟩

/-! ### Claim C2: the sort step -/

theorem dtLE_total (a b : DateTime) : dtLE a b ∨ dtLE b a := by
  unfold dtLE
  omega

theorem dtLE_trans (a b c : DateTime) : dtLE a b → dtLE b c → dtLE a c := by
  unfold dtLE
  omega

theorem dueLE_total (a b : Option DateTime) : dueLE a b ∨ dueLE b a := by
  cases a <;> cases b <;> simp [dueLE]
  exact dtLE_total _ _

theorem dueLE_trans (a b c : Option DateTime) :
    dueLE a b → dueLE b c → dueLE a c := by
  cases a <;> cases b <;> cases c <;> simp [dueLE]
  exact dtLE_trans _ _ _

instance : IsTotal Task taskLE := ⟨fun a b => dueLE_total a.due b.due⟩

instance : IsTrans Task taskLE := ⟨fun a b c => dueLE_trans a.due b.due c.due⟩

/-- C2: after the sort step of `main`, every task with a due timestamp
precedes every task without one, and among the dated tasks the due
timestamps are non-decreasing (in the `datetime` order `dtLE`). -/
theorem C2_sorting (ts : List Task) :
    (∀ i j : Fin (main_sort_tasks ts).length, i < j →
        ((main_sort_tasks ts).get i).due = none →
        ((main_sort_tasks ts).get j).due = none) ∧
    (∀ i j : Fin (main_sort_tasks ts).length, i < j → ∀ a b : DateTime,
        ((main_sort_tasks ts).get i).due = some a →
        ((main_sort_tasks ts).get j).due = some b → dtLE a b) := by
  have hs : List.Sorted taskLE (main_sort_tasks ts) :=
    List.sorted_insertionSort taskLE ts
  have hget : ∀ i j : Fin (main_sort_tasks ts).length, i < j →
      taskLE ((main_sort_tasks ts).get i) ((main_sort_tasks ts).get j) :=
    fun i j hij => List.pairwise_iff_get.mp hs i j hij
  constructor
  · intro i j hij hi
    have h := hget i j hij
    unfold taskLE at h
    rw [hi] at h
    cases hj : ((main_sort_tasks ts).get j).due with
    | none => rfl
    | some b =>
      rw [hj] at h
      exact absurd h (by simp [dueLE])
  · intro i j hij a b ha hb
    have h := hget i j hij
    unfold taskLE at h
    rw [ha, hb] at h
    exact h

/-- C2, witness: the sorted form of a two-undated-task list keeps an undated
task in the second position, by the first part of the sorting theorem. -/
theorem C2_sorting_witness :
    ((main_sort_tasks [⟨none, none⟩, ⟨none, none⟩]).get ⟨1, by decide⟩).due = none :=
  (C2_sorting [⟨none, none⟩, ⟨none, none⟩]).1
    ⟨0, by decide⟩ ⟨1, by decide⟩ (by decide) (by decide)

/-! ### Claims C3 and C9: the display loop -/

theorem natDigits_lt10 (n : Nat) (h : n < 10) : natDigits n = [digitChar n] := by
  simp [natDigits, natDigitsAux, h]

theorem natDigits_length_bounds (n : Nat) (h : n ≤ 99) :
    1 ≤ (natDigits n).length ∧ (natDigits n).length ≤ 2 := by
  by_cases h10 : n < 10
  · simp [natDigits_lt10 n h10]
  · obtain ⟨m, rfl⟩ : ∃ m, n = m + 1 := ⟨n - 1, by omega⟩
    have hq : (m + 1) / 10 < 10 := by omega
    simp [natDigits, natDigitsAux, h10, hq]

theorem padNum_two_length (n : Nat) (h : n ≤ 99) : (padNum 2 n).length = 2 := by
  obtain ⟨h1, h2⟩ := natDigits_length_bounds n h
  simp only [padNum, List.length_append, List.length_replicate]
  omega

/-- The compact date suffix of a valid parsed date is 6 to 8 characters. -/
theorem format_date_length (dt : DateTime) (hv : ValidDT dt) :
    (format_date dt).length ≤ 8 := by
  obtain ⟨-, -, -, hm, -, hd, -, -⟩ := hv
  obtain ⟨hm1, hm2⟩ := natDigits_length_bounds dt.month (by omega)
  obtain ⟨hd1, hd2⟩ := natDigits_length_bounds dt.day (by omega)
  have hy := padNum_two_length (dt.year % 100) (by omega)
  simp only [format_date, List.length_append, List.length_cons, hy]
  omega

/-- A dated slot with a real description and a valid date renders without
crashing: exactly `total_length` characters, and the gate identity is present
exactly when the 180-second window check passes. -/
theorem processSlot_dated (now : Int) (desc : List Char) (dt : DateTime)
    (hv : ValidDT dt) :
    ∃ out, processSlot now (some ⟨some desc, some dt⟩) = some out ∧
      out.text.length = total_length ∧
      out.consulted = (if 0 ≤ toMicro dt - now ∧ toMicro dt - now ≤ 180000000
        then some (isoformat dt) else none) := by
  have hfd : (format_date dt).length ≤ 8 := format_date_length dt hv
  have hL : (3 : Int) ≤ (total_length : Int) - (((format_date dt).length : Int) + 3) := by
    unfold total_length
    push_cast
    omega
  obtain ⟨tr, htr, hlen, -, -⟩ := truncate_spec desc _ hL
  refine ⟨⟨pad_task_description_with_date tr (format_date dt) total_length,
      if 0 ≤ toMicro dt - now ∧ toMicro dt - now ≤ 180000000
        then some (isoformat dt) else none⟩, ?_, ?_, rfl⟩
  · simp only [processSlot]
    rw [htr]
  · apply pad_length
    omega

/-- An undated slot with a real description renders without crashing:
exactly `total_length` characters and no gate consultation. -/
theorem processSlot_undated (now : Int) (desc : List Char) :
    ∃ out, processSlot now (some ⟨some desc, none⟩) = some out ∧
      out.text.length = total_length ∧ out.consulted = none := by
  have hL : (3 : Int) ≤ (total_length : Int) := by unfold total_length; omega
  obtain ⟨tr, htr, hlen, -, -⟩ := truncate_spec desc _ hL
  refine ⟨⟨ljust tr total_length, none⟩, ?_, ?_, rfl⟩
  · simp only [processSlot]
    rw [htr]
  · simp only [ljust, List.length_append, List.length_replicate]
    omega

/-- The display loop writes one string per slot, of the rendered length, with
empty slots rendered blank, whenever every slot renders without crashing. -/
theorem runSlots_ok (now : Int) :
    ∀ (slots : List (Option Task)) (st : Option (List Char)),
      (∀ t? ∈ slots, ∃ out, processSlot now t? = some out ∧
        out.text.length = total_length) →
      ∃ r, runSlots now slots st = some r ∧
        r.texts.length = slots.length ∧
        (∀ s ∈ r.texts, s.length = total_length) ∧
        (∀ i, i < slots.length → slots.getD i none = none →
          r.texts.getD i [] = List.replicate total_length ' ') := by
  intro slots
  induction slots with
  | nil =>
    intro st h
    exact ⟨⟨[], st, []⟩, rfl, rfl, by simp, by simp⟩
  | cons t? rest ih =>
    intro st h
    obtain ⟨out, hout, hlen⟩ := h t? (List.mem_cons_self _ _)
    have hrest := fun x hx => h x (List.mem_cons_of_mem _ hx)
    have hfirst : ∀ i (hi : i < (t? :: rest).length),
        (t? :: rest).getD 0 none = none → out.text = List.replicate total_length ' ' := by
      intro i hi h0
      simp only [List.getD_cons_zero] at h0
      subst h0
      have : out = ⟨List.replicate total_length ' ', none⟩ := by
        have h' : processSlot now none = some ⟨List.replicate total_length ' ', none⟩ := rfl
        rw [h'] at hout
        exact (Option.some.inj hout).symm
      rw [this]
    cases hcons : out.consulted with
    | none =>
      obtain ⟨r, hr, hrlen, hrall, hrempty⟩ := ih st hrest
      refine ⟨⟨out.text :: r.texts, r.tracker, r.sent⟩, ?_, ?_, ?_, ?_⟩
      · simp only [runSlots, hout, hcons, hr]
        simp
      · simp [hrlen]
      · intro s hs
        rcases List.mem_cons.mp hs with rfl | hs'
        · exact hlen
        · exact hrall s hs'
      · intro i hi hslot
        match i with
        | 0 => simpa using hfirst 0 hi hslot
        | k + 1 =>
          simp only [List.getD_cons_succ] at hslot ⊢
          exact hrempty k (by simpa using hi) hslot
    | some id =>
      obtain ⟨b, st2⟩ : Bool × Option (List Char) := should_send_notification st id
      cases hg : should_send_notification st id with
      | mk b st2 =>
        obtain ⟨r, hr, hrlen, hrall, hrempty⟩ := ih st2 hrest
        refine ⟨⟨out.text :: r.texts, r.tracker, (if b then [id] else []) ++ r.sent⟩,
          ?_, ?_, ?_, ?_⟩
        · simp only [runSlots, hout, hcons, hg, hr]
        · simp [hrlen]
        · intro s hs
          rcases List.mem_cons.mp hs with rfl | hs'
          · exact hlen
          · exact hrall s hs'
        · intro i hi hslot
          match i with
          | 0 => simpa using hfirst 0 hi hslot
          | k + 1 =>
            simp only [List.getD_cons_succ] at hslot ⊢
            exact hrempty k (by simpa using hi) hslot

/-- C3: for every task list (with the spec's task data model: a string
description, and a valid parsed timestamp when dated), every current time and
every tracker state, one run writes exactly `max_tasks = 5` files, indexed
0 through 4, every written string is exactly `total_length = 40` characters,
and slots beyond the task count hold exactly 40 spaces. -/
theorem C3_slots (tasks : List Task) (now : Int) (st : Option (List Char))
    (hdesc : ∀ t ∈ tasks, t.desc ≠ none)
    (hdt : ∀ t ∈ tasks, ∀ dt, t.due = some dt → ValidDT dt) :
    ∃ r, runWidget now st tasks = some r ∧
      r.texts.length = max_tasks ∧
      (∀ s ∈ r.texts, s.length = total_length) ∧
      (∀ i, i < max_tasks → tasks.length ≤ i →
        r.texts.getD i [] = List.replicate total_length ' ') ∧
      (filesOf r.texts).map Prod.fst = List.range max_tasks := by
  have hslots : ∀ t? ∈ slotTasks tasks, ∃ out, processSlot now t? = some out ∧
      out.text.length = total_length := by
    intro t? ht?
    simp only [slotTasks, List.mem_map] at ht?
    obtain ⟨i, -, rfl⟩ := ht?
    cases hg : tasks.get? i with
    | none => exact ⟨⟨List.replicate total_length ' ', none⟩, rfl, by simp⟩
    | some t =>
      have hmem : t ∈ tasks := List.get?_mem hg
      obtain ⟨d?, u?⟩ := t
      cases hd : d? with
      | none => exact absurd (by rw [hd]) (hdesc _ hmem)
      | some desc =>
        cases hu : u? with
        | none =>
          obtain ⟨out, ho, hl, -⟩ := processSlot_undated now desc
          exact ⟨out, ho, hl⟩
        | some dt =>
          have hv : ValidDT dt := hdt _ hmem dt (by rw [hu])
          obtain ⟨out, ho, hl, -⟩ := processSlot_dated now desc dt hv
          exact ⟨out, ho, hl⟩
  obtain ⟨r, hr, hlen, hall, hempty⟩ := runSlots_ok now (slotTasks tasks) st hslots
  have hslen : (slotTasks tasks).length = max_tasks := by simp [slotTasks]
  refine ⟨r, hr, by rw [hlen, hslen], hall, ?_, ?_⟩
  · intro i hi htl
    apply hempty i (by rw [hslen]; exact hi)
    have hgd : (slotTasks tasks).getD i none = tasks.get? i := by
      simp only [slotTasks, List.getD, List.get?_map, List.get?_range hi]
      rfl
    rw [hgd]
    exact List.get?_eq_none.mpr htl
  · simp only [filesOf, write_task_file, List.map_map]
    have : (Prod.fst ∘ fun p : Nat × List Char => (p.1, p.2)) = Prod.fst := rfl
    rw [this, List.enum_map_fst, hlen, hslen]

/-- C3, witness: a one-task run (fewer tasks than slots) completes. -/
theorem C3_slots_witness :
    (runWidget 0 none [⟨some "hello".toList, none⟩]).isSome = true := by
  obtain ⟨r, hr, -⟩ :=
    C3_slots [⟨some "hello".toList, none⟩] 0 none
      (by decide)
      (fun t ht dt hdt => by
        rw [List.mem_singleton] at ht
        subst ht
        cases hdt)
  rw [hr]
  rfl

/-- C9: for every dated task with a real description and valid parsed date in
a display slot, and every current time `now` (in microseconds, the granularity
of Python datetime subtraction), the notification gate is consulted exactly
when `0 ≤ due − now ≤ 180` seconds (`180000000` microseconds): inside the
window the slot carries the ISO identity for the gate, and past-due or
far-future tasks never trigger it. -/
theorem C9_window (desc : List Char) (dt : DateTime) (now : Int) (hv : ValidDT dt) :
    ∃ out, processSlot now (some ⟨some desc, some dt⟩) = some out ∧
      ((0 ≤ toMicro dt - now ∧ toMicro dt - now ≤ 180000000) →
        out.consulted = some (isoformat dt)) ∧
      ((toMicro dt - now < 0 ∨ 180000000 < toMicro dt - now) →
        out.consulted = none) := by
  obtain ⟨out, ho, -, hcons⟩ := processSlot_dated now desc dt hv
  refine ⟨out, ho, ?_, ?_⟩
  · intro hw
    rw [hcons, if_pos hw]
  · intro hw
    rw [hcons, if_neg (by omega)]

/-- C9, witness: a task due 60 seconds from now carries the gate identity. -/
theorem C9_window_witness :
    (processSlot (toMicro ⟨2025, 1, 2, 10, 30⟩ - 60000000)
        (some ⟨some "Buy milk".toList, some ⟨2025, 1, 2, 10, 30⟩⟩)).map
      SlotOut.consulted = some (some (isoformat ⟨2025, 1, 2, 10, 30⟩)) := by
  obtain ⟨out, ho, hin, -⟩ :=
    C9_window "Buy milk".toList ⟨2025, 1, 2, 10, 30⟩
      (toMicro ⟨2025, 1, 2, 10, 30⟩ - 60000000) (by decide)
  rw [ho, Option.map_some', hin (by omega)]

/-! ### Claim C5: malformed SCHEDULED lines -/

/-- C5 (amended): a `SCHEDULED:`-containing line after a TODO line on which
the date pattern `SCHEDULED: <YYYY-MM-DD` does not match yields an undated
task and the run continues.  (As stated the claim is false: when the pattern
does match but the digits are not a valid calendar date or time, `strptime`
raises an uncaught `ValueError` and the run dies — there is no try/except
around src/main.py line 250.) -/
theorem C5_malformed (l0 l1 : List Char) (rest : List (List Char))
    (h0 : startsWith "- TODO".toList (pystrip l0) = true)
    (h1 : containsSub "SCHEDULED:".toList (pystrip l1) = true)
    (h2 : (parse_scheduled_line (pystrip l1)).1 = none) :
    main_collect_tasks (l0 :: l1 :: rest) =
      (main_collect_tasks (l1 :: rest)).map
        (fun ts => ⟨parse_task_line (pystrip l0), none⟩ :: ts) := by
  cases hp : parse_scheduled_line (pystrip l1) with
  | mk d t =>
    rw [hp] at h2
    simp only at h2
    subst h2
    simp only [main_collect_tasks]
    rw [if_pos h0, if_pos h1, hp]

/-- C5, the claim as stated is false at an explicit input: the SCHEDULED
line `SCHEDULED: <2024-13-01>` matches the date pattern but month 13 makes
`strptime` raise, so the run dies (`none`) instead of producing the undated
task the claim promises. -/
theorem C5_malformed_counterexample :
    main_collect_tasks ["- TODO x".toList, "SCHEDULED: <2024-13-01>".toList] = none ∧
    main_collect_tasks ["- TODO x".toList, "SCHEDULED: <2024-13-01>".toList] ≠
      some [⟨some "x".toList, none⟩] := by decide

/-- C5, witness: a SCHEDULED line whose date pattern does not match yields the
undated task and the run continues. -/
theorem C5_malformed_witness :
    main_collect_tasks ["- TODO x".toList, "SCHEDULED: <tomorrow>".toList] =
      (main_collect_tasks ["SCHEDULED: <tomorrow>".toList]).map
        (fun ts => ⟨parse_task_line (pystrip "- TODO x".toList), none⟩ :: ts) :=
  C5_malformed "- TODO x".toList "SCHEDULED: <tomorrow>".toList []
    (by decide) (by decide) (by decide)

/-! ### Claim C7: the TODO line grammar -/

/-- C7 (amended): the collection loop produces a task from a single line
exactly when the stripped line starts with `- TODO` (six characters, no
trailing space required); the recorded description is the `parse_task_line`
result, which — on a newline-free line — is `some` of the verbatim remainder
after the seven-character marker `'- TODO '` exactly when that remainder is
non-empty, and any produced `some` description is non-empty.  (As stated the
claim is false: a line such as `- TODO` passes the `startswith('- TODO')`
check but fails the regex, so a task with a `None` description is recorded.) -/
theorem C7_todo_grammar (l : List Char) (hnl : '\n' ∉ l) :
    (startsWith "- TODO".toList (pystrip l) = true →
      main_collect_tasks [l] = some [⟨parse_task_line (pystrip l), none⟩]) ∧
    (startsWith "- TODO".toList (pystrip l) = false →
      main_collect_tasks [l] = some []) ∧
    (∀ d, parse_task_line (pystrip l) = some d →
      d = (pystrip l).drop 7 ∧ d ≠ []) ∧
    (parse_task_line (pystrip l) ≠ none ↔
      startsWith "- TODO ".toList (pystrip l) = true ∧ 7 < (pystrip l).length) := by
  have htw : ((pystrip l).drop 7).takeWhile (fun c => c ≠ '\n') = (pystrip l).drop 7 := by
    rw [List.takeWhile_eq_self_iff]
    intro c hc
    have hcl : c ∈ l := (pystrip_sublist l).subset (List.mem_of_mem_drop hc)
    simp only [ne_eq, decide_eq_true_eq]
    intro hceq
    subst hceq
    exact hnl hcl
  refine ⟨?_, ?_, ?_, ?_⟩
  · intro h
    simp only [main_collect_tasks]
    rw [if_pos h]
  · intro h
    simp only [main_collect_tasks]
    rw [if_neg (by rw [h]; simp)]
  · intro d hd
    unfold parse_task_line at hd
    by_cases hpre : startsWith "- TODO ".toList (pystrip l) = true
    · rw [if_pos hpre, htw] at hd
      by_cases h0 : ((pystrip l).drop 7).length = 0
      · rw [if_pos h0] at hd
        exact absurd hd (by simp)
      · rw [if_neg h0] at hd
        refine ⟨(Option.some.inj hd).symm, ?_⟩
        intro hde
        apply h0
        rw [Option.some.inj hd, hde]
        rfl
    · rw [if_neg hpre] at hd
      exact absurd hd (by simp)
  · constructor
    · intro h
      unfold parse_task_line at h
      by_cases hpre : startsWith "- TODO ".toList (pystrip l) = true
      · refine ⟨hpre, ?_⟩
        rw [if_pos hpre, htw] at h
        by_cases h0 : ((pystrip l).drop 7).length = 0
        · rw [if_pos h0] at h
          exact absurd rfl h
        · rw [List.length_drop] at h0
          omega
      · rw [if_neg hpre] at h
        exact absurd rfl h
    · rintro ⟨hpre, hlen⟩
      unfold parse_task_line
      rw [if_pos hpre, htw]
      rw [if_neg (by rw [List.length_drop]; omega)]
      simp

/-- C7, the claim as stated is false at an explicit input: the line `- TODO`
does not match the grammar `'- TODO ' + non-empty description`, yet the loop
records a task for it — and that task's description is Python `None`, not a
non-empty string. -/
theorem C7_todo_grammar_counterexample :
    main_collect_tasks ["- TODO".toList] = some [⟨none, none⟩] ∧
    main_collect_tasks ["- TODO".toList] ≠ some [] ∧
    (⟨none, none⟩ : Task).desc = none := by decide

/-- C7, witness: a grammatical TODO line records its verbatim description. -/
theorem C7_todo_grammar_witness :
    main_collect_tasks ["- TODO Buy milk".toList] =
      some [⟨parse_task_line (pystrip "- TODO Buy milk".toList), none⟩] :=
  (C7_todo_grammar "- TODO Buy milk".toList (by decide)).1 (by decide)

/-! ### Claim C8: date and time extraction from a SCHEDULED line -/

/-- `re.search` semantics: if the pattern matcher succeeds at position `i`
and fails at every earlier position, the search returns that match. -/
theorem searchFirst_of_leftmost (f : List Char → Option (List Char)) :
    ∀ (s : List Char) (i : Nat) (r : List Char),
      f (s.drop i) = some r → (∀ j, j < i → f (s.drop j) = none) →
      searchFirst f s = some r := by
  intro s
  induction s with
  | nil =>
    intro i r hf hj
    simp only [List.drop_nil] at hf
    simpa [searchFirst] using hf
  | cons c rest ih =>
    intro i r hf hj
    match i with
    | 0 =>
      simp only [List.drop_zero] at hf
      simp [searchFirst, hf]
    | k + 1 =>
      have h0 : f (c :: rest) = none := by simpa using hj 0 (by omega)
      simp only [searchFirst, h0]
      exact ih k r (by simpa [List.drop_succ_cons] using hf)
        (fun j hjk => by simpa [List.drop_succ_cons] using hj (j + 1) (by omega))

/-- C8 (amended): the extracted due date is the capture of the leftmost
position where the anchored pattern `SCHEDULED: <YYYY-MM-DD` matches — not
the first date-shaped token anywhere in the line — while the extracted time
is, as claimed, the capture of the leftmost position where the pattern
`HH:MM` matches, anywhere in the line. -/
theorem C8_extraction (l cap : List Char) (i : Nat) :
    (matchDateAt (l.drop i) = some cap → (∀ j, j < i → matchDateAt (l.drop j) = none) →
      (parse_scheduled_line l).1 = some cap) ∧
    (matchTimeAt (l.drop i) = some cap → (∀ j, j < i → matchTimeAt (l.drop j) = none) →
      (parse_scheduled_line l).2 = some cap) :=
  ⟨fun hf hj => searchFirst_of_leftmost matchDateAt l i cap hf hj,
   fun hf hj => searchFirst_of_leftmost matchTimeAt l i cap hf hj⟩

/-- C8, the claim as stated is false at an explicit input: on the line
`2024-01-02 SCHEDULED: <2024-03-04>` the first date-shaped token anywhere is
`2024-01-02`, but the code extracts `2024-03-04`, the one anchored to the
literal `SCHEDULED: <`. -/
theorem C8_extraction_counterexample :
    parse_scheduled_line "2024-01-02 SCHEDULED: <2024-03-04>".toList =
      (some "2024-03-04".toList, none) ∧
    firstDateAnywhere "2024-01-02 SCHEDULED: <2024-03-04>".toList =
      some "2024-01-02".toList ∧
    ("2024-03-04".toList : List Char) ≠ "2024-01-02".toList := by decide

/-- C8, witness: the leftmost anchored date match (at position 11) determines
the extracted date. -/
theorem C8_extraction_witness :
    (parse_scheduled_line "2024-01-02 SCHEDULED: <2024-03-04 10:00>".toList).1 =
      some "2024-03-04".toList :=
  (C8_extraction "2024-01-02 SCHEDULED: <2024-03-04 10:00>".toList
      "2024-03-04".toList 11).1 (by decide) (by decide)

end Logpush
